import Mathlib

/-!
Verification of the tabular dynamic-programming reinforcement-learning
repository: a shallow embedding of the two concrete MDP environments
(`FrozenLake`, `GridWorld`), the episodic `Environment.step` contract, and
the model-based solvers (`policy_evaluation`, `policy_improvement`,
`policy_iteration`), followed by theorems about them.  Probabilities and
rewards are embedded as exact rationals.
-/

/-- Movement deltas for the four actions, matching the source tuple
`self.actions = ((-1, 0), (1, 0), (0, -1), (0, 1))` indexed by action. -/
def action_delta : Nat → Int × Int
  | 0 => (-1, 0)
  | 1 => (1, 0)
  | 2 => (0, -1)
  | _ => (0, 1)

/-- A 2-D grid of symbols together with its shape, as stored in `self.lake`
(FrozenLake) or `self.world` (GridWorld).  `cell` is total; the source only
reads it at in-range coordinates. -/
structure Grid where
  rows : Nat
  columns : Nat
  cell : Nat → Nat → Char

/-- Modelled from the spec: `index_to_position` from `rl.environment.env_helper`
(not under `src/`) converts a flat row-major state index to its
`(row, column)` grid coordinate. -/
def index_to_position (i columns : Nat) : Nat × Nat :=
  (i / columns, i % columns)

/-- Modelled from the spec: `position_to_index` from `rl.environment.env_helper`
(not under `src/`) converts a `(row, column)` coordinate back to the flat
row-major index. -/
def position_to_index (x y columns : Nat) : Nat :=
  x * columns + y

/-- The symbol of the grid cell holding flat state index `state`. -/
def Grid.cellAt (g : Grid) (state : Nat) : Char :=
  g.cell (index_to_position state g.columns).1 (index_to_position state g.columns).2

/-- `n_states` of `FrozenLake`: lake size plus the absorbing state. -/
def FrozenLake.nS (L : Grid) : Nat := L.rows * L.columns + 1

/-- `self.absorbing_state = n_states - 1` of `FrozenLake`. -/
def FrozenLake.absorbing (L : Grid) : Nat := FrozenLake.nS L - 1

/-- The cell reached from `state` by `slip_action`'s movement delta, clipped to
`state` itself when the move leaves the grid: the `next_state` computed by the
innermost loop body of `FrozenLake._populate_probabilities`. -/
def FrozenLake.dest (L : Grid) (state slip_action : Nat) : Nat :=
  if 0 ≤ ((index_to_position state L.columns).1 : Int) + (action_delta slip_action).1 ∧
      ((index_to_position state L.columns).1 : Int) + (action_delta slip_action).1 < (L.rows : Int) ∧
      0 ≤ ((index_to_position state L.columns).2 : Int) + (action_delta slip_action).2 ∧
      ((index_to_position state L.columns).2 : Int) + (action_delta slip_action).2 < (L.columns : Int) then
    position_to_index
      (((index_to_position state L.columns).1 : Int) + (action_delta slip_action).1).toNat
      (((index_to_position state L.columns).2 : Int) + (action_delta slip_action).2).toNat
      L.columns
  else
    state

/-- Probability mass accumulated at tensor entry `_p[state, action, next]` by
the slip loop of `FrozenLake._populate_probabilities`: each `slip_action`
adds `slip / n_actions` at its destination, and the intended `action`
additionally adds `1 - slip` at its own destination. -/
def FrozenLake.populateEntry (L : Grid) (slip : ℚ) (state action next : Nat) : ℚ :=
  (List.range 4).foldl
    (fun acc slip_action =>
      if action = slip_action then
        (if FrozenLake.dest L state slip_action = next then
          (if FrozenLake.dest L state slip_action = next then acc + slip / 4 else acc) + (1 - slip)
        else
          (if FrozenLake.dest L state slip_action = next then acc + slip / 4 else acc))
      else
        (if FrozenLake.dest L state slip_action = next then acc + slip / 4 else acc))
    0

/-- Entry `_p[state, action, next]` of the dense transition tensor built once
by `FrozenLake._populate_probabilities`; `FrozenLake.p` returns exactly this
entry.  Hole and goal cells and the absorbing state route to the absorbing
state with probability 1 for every action. -/
def FrozenLake.transitionP (L : Grid) (slip : ℚ) (next state action : Nat) : ℚ :=
  if state = FrozenLake.absorbing L ∨ L.cellAt state = '#' ∨ L.cellAt state = '$' then
    (if next = FrozenLake.absorbing L then 1 else 0)
  else
    FrozenLake.populateEntry L slip state action next

/-- `FrozenLake.r`: zero when the queried transition has zero probability or
the origin is the absorbing state, one when leaving a goal cell. -/
def FrozenLake.reward (L : Grid) (slip : ℚ) (next state action : Nat) : ℚ :=
  if FrozenLake.transitionP L slip next state action = 0 ∨ FrozenLake.absorbing L = state then 0
  else if L.cellAt state = '$' then 1
  else 0

/-- The 4×4 lake of `run_frozenlake`. -/
def lakeRows : List (List Char) :=
  [['&', '.', '.', '.'],
   ['.', '#', '.', '#'],
   ['.', '.', '.', '#'],
   ['#', '.', '.', '$']]

/-- The 4×4 `FrozenLake` grid built by `run_frozenlake`. -/
def lake4 : Grid :=
  { rows := 4, columns := 4,
    cell := fun x y => (((lakeRows.get? x).getD []).get? y).getD ' ' }

/-- `n_states` of `GridWorld`: world size plus the absorbing state. -/
def GridWorld.nS (W : Grid) : Nat := W.rows * W.columns + 1

/-- `self.absorbing_state = n_states - 1` of `GridWorld`. -/
def GridWorld.absorbing (W : Grid) : Nat := GridWorld.nS W - 1

/-- The `next_x` local of `GridWorld.p`: the row reached by `action`'s delta. -/
def GridWorld.moveX (W : Grid) (state action : Nat) : Int :=
  ((index_to_position state W.columns).1 : Int) + (action_delta action).1

/-- The `next_y` local of `GridWorld.p`: the column reached by `action`'s delta. -/
def GridWorld.moveY (W : Grid) (state action : Nat) : Int :=
  ((index_to_position state W.columns).2 : Int) + (action_delta action).2

/-- `GridWorld.p` (computed on demand, not cached): self-loop for obstacles and
the absorbing state, transition to the absorbing state from either goal cell,
otherwise the deterministic move, clipped to a self-loop when it leaves the
grid or runs into an obstacle. -/
def GridWorld.transitionP (W : Grid) (next state action : Nat) : ℚ :=
  if state = GridWorld.absorbing W ∨ W.cellAt state = '#' then
    (if state = next then 1 else 0)
  else if W.cellAt state = '£' ∨ W.cellAt state = '$' then
    (if next = GridWorld.absorbing W then 1 else 0)
  else if 0 ≤ GridWorld.moveX W state action ∧ GridWorld.moveX W state action < (W.rows : Int) ∧
      0 ≤ GridWorld.moveY W state action ∧ GridWorld.moveY W state action < (W.columns : Int) ∧
      W.cell (GridWorld.moveX W state action).toNat (GridWorld.moveY W state action).toNat ≠ '#' then
    (if next = position_to_index (GridWorld.moveX W state action).toNat
        (GridWorld.moveY W state action).toNat W.columns then 1 else 0)
  else
    (if state = next then 1 else 0)

/-- `GridWorld.r`: zero when the queried transition has zero probability or
either endpoint is the absorbing state, else signed reward by the symbol of
the destination cell. -/
def GridWorld.reward (W : Grid) (next state action : Nat) : ℚ :=
  if GridWorld.transitionP W next state action = 0 ∨ GridWorld.absorbing W = state ∨
      GridWorld.absorbing W = next then 0
  else if W.cellAt next = '$' then 1
  else if W.cellAt next = '£' then -1
  else 0

/-- The 4×4 grid of `run_gridworld`. -/
def gridRows : List (List Char) :=
  [['&', '.', '.', '.'],
   ['.', '#', '.', '#'],
   ['.', '.', '.', '£'],
   ['#', '.', '.', '$']]

/-- The 4×4 `GridWorld` grid built by `run_gridworld`. -/
def grid4 : Grid :=
  { rows := 4, columns := 4,
    cell := fun x y => (((gridRows.get? x).getD []).get? y).getD ' ' }

/-- Reading `world[x, y]` with raw integer indices under numpy's rule: an index
is valid on an axis of size `d` exactly when it lies in `[-d, d)`, and
negative indices wrap around. -/
def Grid.cellI (g : Grid) (x y : Int) : Option Char :=
  if -(g.rows : Int) ≤ x ∧ x < (g.rows : Int) ∧ -(g.columns : Int) ≤ y ∧ y < (g.columns : Int) then
    some (g.cell (x.emod (g.rows : Int)).toNat (y.emod (g.columns : Int)).toNat)
  else
    none

/-- `FrozenLake.p` as queried with raw integer indices: it reads
`self._p[state, action, next_state]` from the precomputed dense tensor, so
numpy validates every index against the wraparound range `[-dim, dim)` of its
axis, wraps negative indices, and only then reads the tensor entry. -/
def FrozenLake.pQuery (L : Grid) (slip : ℚ) (next state action : Int) : Option ℚ :=
  if -(FrozenLake.nS L : Int) ≤ state ∧ state < (FrozenLake.nS L : Int) ∧
      -4 ≤ action ∧ action < 4 ∧
      -(FrozenLake.nS L : Int) ≤ next ∧ next < (FrozenLake.nS L : Int) then
    some (FrozenLake.transitionP L slip
      (next.emod (FrozenLake.nS L : Int)).toNat
      (state.emod (FrozenLake.nS L : Int)).toNat
      (action.emod 4).toNat)
  else
    none

/-- `GridWorld.p` as queried with raw integer indices, with the Python-level
failure behavior: tuple indexing of `self.actions` accepts `[-4, 4)` and wraps,
`world[x, y]` follows numpy's wraparound rule (and is skipped for the
absorbing state by short-circuit), the destination cell is only read under the
in-bounds test, and `next_state` is only ever compared, never used as an
index. -/
def GridWorld.pQuery (W : Grid) (next state action : Int) : Option ℚ :=
  if -4 ≤ action ∧ action < 4 then
    if state = (GridWorld.nS W : Int) - 1 then
      some (if state = next then 1 else 0)
    else
      (W.cellI (state.ediv (W.columns : Int)) (state.emod (W.columns : Int))).elim none
        (fun c =>
          if c = '#' then some (if state = next then 1 else 0)
          else if c = '£' ∨ c = '$' then some (if next = (GridWorld.nS W : Int) - 1 then 1 else 0)
          else if 0 ≤ state.ediv (W.columns : Int) + (action_delta (action.emod 4).toNat).1 ∧
              state.ediv (W.columns : Int) + (action_delta (action.emod 4).toNat).1 < (W.rows : Int) ∧
              0 ≤ state.emod (W.columns : Int) + (action_delta (action.emod 4).toNat).2 ∧
              state.emod (W.columns : Int) + (action_delta (action.emod 4).toNat).2 < (W.columns : Int) ∧
              W.cell (state.ediv (W.columns : Int) + (action_delta (action.emod 4).toNat).1).toNat
                (state.emod (W.columns : Int) + (action_delta (action.emod 4).toNat).2).toNat ≠ '#' then
            some (if next = ((state.ediv (W.columns : Int) + (action_delta (action.emod 4).toNat).1).toNat *
                W.columns + (state.emod (W.columns : Int) + (action_delta (action.emod 4).toNat).2).toNat : Nat) then 1 else 0)
          else some (if state = next then 1 else 0))
  else
    none

/-- `FrozenLake.r` as queried with raw integer indices: it first reads
`self._p[state, action, next_state]` exactly as `FrozenLake.p` does (numpy
wraparound validation, then the wrapped tensor entry), compares the raw
`state` against the absorbing index, and only when the mass is nonzero and the
origin is not absorbing looks the origin's symbol up via
`index_to_position(state, columns)` — extended to raw integers with Python's
floor-division divmod, i.e. `ediv`/`emod` for a positive modulus — followed by
a numpy `lake[x, y]` access that may itself fail. -/
def FrozenLake.rQuery (L : Grid) (slip : ℚ) (next state action : Int) : Option ℚ :=
  (FrozenLake.pQuery L slip next state action).elim none
    (fun q =>
      if q = 0 ∨ (FrozenLake.absorbing L : Int) = state then some 0
      else
        (L.cellI (state.ediv (L.columns : Int)) (state.emod (L.columns : Int))).elim none
          (fun c => if c = '$' then some 1 else some 0))

/-- `GridWorld.r` as queried with raw integer indices: it first calls
`GridWorld.p` on the raw indices, compares the raw `state` and `next_state`
against the absorbing index, and only when the probability is nonzero and
neither endpoint is absorbing looks the destination's symbol up via
`index_to_position(next_state, columns)` (Python floor-division divmod on raw
integers) followed by a numpy `world[x, y]` access that may itself fail. -/
def GridWorld.rQuery (W : Grid) (next state action : Int) : Option ℚ :=
  (GridWorld.pQuery W next state action).elim none
    (fun q =>
      if q = 0 ∨ (GridWorld.absorbing W : Int) = state ∨ (GridWorld.absorbing W : Int) = next then
        some 0
      else
        (W.cellI (next.ediv (W.columns : Int)) (next.emod (W.columns : Int))).elim none
          (fun c => if c = '$' then some 1 else if c = '£' then some (-1) else some 0))

/-- Mutable per-instance episode state of `Environment`: the current state
`self.state` and the step counter `self.n_steps`. -/
structure EnvState where
  state : Nat
  n_steps : Nat
deriving DecidableEq

/-- `Environment.step`: validates the action, then increments the step counter,
computes truncation against `max_steps`, draws the next state and reward, and
stores the new current state.  On an invalid action it raises before any
mutation, so the returned object state equals the input.  The sampling of
`EnvironmentModel.draw` (not under `src/`) is abstracted as the `draw`
argument; per the spec it returns a next state drawn from
`transitionProbability(·, current_state, action)` together with that
transition's reward. -/
def Environment.step (n_actions max_steps : Nat) (draw : Nat → Nat → Nat × ℚ)
    (es : EnvState) (action : Int) : EnvState × Except String (Nat × ℚ × Bool) :=
  if action < 0 ∨ (n_actions : Int) ≤ action then
    (es, Except.error "Invalid Action!!!")
  else
    (⟨(draw es.state action.toNat).1, es.n_steps + 1⟩,
      Except.ok ((draw es.state action.toNat).1, (draw es.state action.toNat).2,
        decide (max_steps ≤ es.n_steps + 1)))

/-- `FrozenLake.step`: the base step, then
`done = (state == self.absorbing_state) or done`. -/
def FrozenLake.step (L : Grid) (max_steps : Nat) (draw : Nat → Nat → Nat × ℚ)
    (es : EnvState) (action : Int) : EnvState × Except String (Nat × ℚ × Bool) :=
  ((Environment.step 4 max_steps draw es action).1,
    (Environment.step 4 max_steps draw es action).2.map
      (fun t => (t.1, t.2.1, (t.1 == FrozenLake.absorbing L) || t.2.2)))

/-- `GridWorld.step`: the base step, then
`done = (state == self.absorbing_state) or done`. -/
def GridWorld.step (W : Grid) (max_steps : Nat) (draw : Nat → Nat → Nat × ℚ)
    (es : EnvState) (action : Int) : EnvState × Except String (Nat × ℚ × Bool) :=
  ((Environment.step 4 max_steps draw es action).1,
    (Environment.step 4 max_steps draw es action).2.map
      (fun t => (t.1, t.2.1, (t.1 == GridWorld.absorbing W) || t.2.2)))

/-- Modelled from the spec: `env.get_prob_rewards` (not under `src/`) exposes
the environment to the solvers as its state/action counts together with the
dense probability and reward tensors, `p s s2 a = transitionProbability(s2, s, a)`
and `r s s2 a = reward(s2, s, a)`. -/
structure MDP where
  n_states : Nat
  n_actions : Nat
  p : Nat → Nat → Nat → ℚ
  r : Nat → Nat → Nat → ℚ

/-- One state's Bellman expectation backup as computed inside
`policy_evaluation`:
`np.sum(identity[pol_s] * p[s] * (r[s] + gamma * value))`, the identity row
masking every action other than `pol_s`. -/
def MDP.backup (env : MDP) (gamma : ℚ) (pol_s : Nat) (v : Nat → ℚ) (s : Nat) : ℚ :=
  ∑ s2 ∈ Finset.range env.n_states, ∑ a ∈ Finset.range env.n_actions,
    (if a = pol_s then (1 : ℚ) else 0) * env.p s s2 a * (env.r s s2 a + gamma * v s2)

/-- One in-place sweep of `policy_evaluation` over all states, returning the
mutated value array and the sweep's `delta`; later states of the sweep read
the values already written by earlier ones. -/
def MDP.evalSweep (env : MDP) (policy : Nat → Nat) (gamma : ℚ) (v : Nat → ℚ) :
    (Nat → ℚ) × ℚ :=
  (List.range env.n_states).foldl
    (fun acc s =>
      (Function.update acc.1 s (MDP.backup env gamma (policy s) acc.1 s),
        max acc.2 |acc.1 s - MDP.backup env gamma (policy s) acc.1 s|))
    (v, 0)

/-- The `while` loop of `policy_evaluation`, with the remaining iteration count
as fuel; it stops as soon as the last sweep's `delta` dropped below `theta`. -/
def MDP.evalLoop (env : MDP) (policy : Nat → Nat) (gamma theta : ℚ) :
    Nat → (Nat → ℚ) → Nat → ℚ
  | 0, v => v
  | fuel + 1, v =>
      if (MDP.evalSweep env policy gamma v).2 < theta then (MDP.evalSweep env policy gamma v).1
      else MDP.evalLoop env policy gamma theta fuel (MDP.evalSweep env policy gamma v).1

/-- `policy_evaluation`: value array initialised to zeros, swept until `delta`
falls below `theta` or `max_iterations` sweeps have run. -/
def policy_evaluation (env : MDP) (policy : Nat → Nat) (gamma theta : ℚ)
    (max_iterations : Nat) : Nat → ℚ :=
  MDP.evalLoop env policy gamma theta max_iterations (fun _ => 0)

/-- Per-state action values as computed in `policy_improvement` and
`value_iteration`: `np.sum(p[s] * (r[s] + gamma * value), axis=0)`. -/
def MDP.qValue (env : MDP) (gamma : ℚ) (v : Nat → ℚ) (s a : Nat) : ℚ :=
  ∑ s2 ∈ Finset.range env.n_states, env.p s s2 a * (env.r s s2 a + gamma * v s2)

/-- `np.argmax` over indices `0, …, n - 1`: the first index attaining the
maximum. -/
def npArgmax (f : Nat → ℚ) (n : Nat) : Nat :=
  (List.range n).foldl (fun best a => if f best < f a then a else best) 0

/-- `policy_improvement`: the greedy policy extracted from the value array,
together with the stability flag
`np.all(np.equal(policy, improved_policy))`. -/
def policy_improvement (env : MDP) (policy : Nat → Nat) (value : Nat → ℚ) (gamma : ℚ) :
    (Nat → Nat) × Bool :=
  ((fun s => if s < env.n_states then npArgmax (MDP.qValue env gamma value s) env.n_actions else 0),
    (List.range env.n_states).all
      (fun s => policy s == (if s < env.n_states then npArgmax (MDP.qValue env gamma value s) env.n_actions else 0)))

/-- The `while` loop of `policy_iteration`, with remaining outer iterations as
fuel; `cap` is the `max_iterations` argument that is also handed to each inner
`policy_evaluation` call. -/
def piLoop (env : MDP) (gamma theta : ℚ) (cap : Nat) :
    Nat → (Nat → Nat) → (Nat → ℚ) → (Nat → Nat) × (Nat → ℚ)
  | 0, policy, value => (policy, value)
  | fuel + 1, policy, _ =>
      if (policy_improvement env policy (policy_evaluation env policy gamma theta cap) gamma).2 then
        ((policy_improvement env policy (policy_evaluation env policy gamma theta cap) gamma).1,
          policy_evaluation env policy gamma theta cap)
      else
        piLoop env gamma theta cap fuel
          (policy_improvement env policy (policy_evaluation env policy gamma theta cap) gamma).1
          (policy_evaluation env policy gamma theta cap)

/-- File name chosen by `policy_iteration` for `save_file`, keyed by the state
count of the environment. -/
def npyFilename (env : MDP) : String :=
  if env.n_states = 17 then "data/small_frozenlake_policy_evaluation.npy"
  else "data/big_frozenlake_policy_evaluation.npy"

/-- `save_file`: `np.save(npy_filename, {'value': value})`, modelled as the
file-write effect it performs. -/
def save_file (name : String) (value : Nat → ℚ) : List (String × (Nat → ℚ)) :=
  [(name, value)]

/-- `policy_iteration`: the alternating evaluate/improve loop, returning the
final `(policy, value)` pair together with the list of file writes the call
performs (it calls `save_file` on the value array before returning). -/
def policy_iteration (env : MDP) (gamma theta : ℚ) (max_iterations : Nat) :
    ((Nat → Nat) × (Nat → ℚ)) × List (String × (Nat → ℚ)) :=
  (piLoop env gamma theta max_iterations max_iterations (fun _ => 0) (fun _ => 0),
    save_file (npyFilename env)
      (piLoop env gamma theta max_iterations max_iterations (fun _ => 0) (fun _ => 0)).2)

/-- A two-state MDP (one live cell plus absorbing state `1`) in which every
transition lands in the absorbing state with probability 1 and reward 0. -/
def mdp2 : MDP :=
  { n_states := 2, n_actions := 2,
    p := fun _ s2 _ => if s2 = 1 then 1 else 0,
    r := fun _ _ _ => 0 }

/-- A policy for `mdp2` choosing action 0 everywhere. -/
def mdp2PolicyA : Nat → Nat := fun _ => 0

/-- A policy for `mdp2` agreeing with `mdp2PolicyA` except at the absorbing
state `1`, where it chooses action 1. -/
def mdp2PolicyB : Nat → Nat := fun s => if s = 1 then 1 else 0

lemma cell_flat_lt {rows columns a b : Nat} (ha : a < rows) (hb : b < columns) :
    a * columns + b < rows * columns := by
  calc a * columns + b < a * columns + columns := by omega
    _ = (a + 1) * columns := by ring
    _ ≤ rows * columns := Nat.mul_le_mul_right _ (by omega)

lemma FrozenLake.dest_lt (L : Grid) (state a2 : Nat) (hs : state < L.rows * L.columns) :
    FrozenLake.dest L state a2 < L.rows * L.columns := by
  unfold FrozenLake.dest
  split
  next h =>
    obtain ⟨h1, h2, h3, h4⟩ := h
    unfold position_to_index
    exact cell_flat_lt (by omega) (by omega)
  next h => exact hs

lemma FrozenLake.populateEntry_eq (L : Grid) (slip : ℚ) (state action next : Nat)
    (ha : action < 4) :
    FrozenLake.populateEntry L slip state action next =
      (∑ a2 ∈ Finset.range 4, if FrozenLake.dest L state a2 = next then slip / 4 else 0) +
        (if FrozenLake.dest L state action = next then 1 - slip else 0) := by
  have h4 : List.range 4 = [0, 1, 2, 3] := rfl
  interval_cases action <;>
    · simp [FrozenLake.populateEntry, h4, Finset.sum_range_succ]
      split_ifs <;> ring

lemma FrozenLake.probs_sum_one (L : Grid) (slip : ℚ) (state action : Nat)
    (hs : state < FrozenLake.nS L) (ha : action < 4) :
    ∑ next ∈ Finset.range (FrozenLake.nS L),
      FrozenLake.transitionP L slip next state action = 1 := by
  by_cases hterm : state = FrozenLake.absorbing L ∨ L.cellAt state = '#' ∨ L.cellAt state = '$'
  · have habs : FrozenLake.absorbing L ∈ Finset.range (FrozenLake.nS L) := by
      simp [FrozenLake.absorbing, FrozenLake.nS]
    calc ∑ next ∈ Finset.range (FrozenLake.nS L), FrozenLake.transitionP L slip next state action
        = ∑ next ∈ Finset.range (FrozenLake.nS L),
            (if next = FrozenLake.absorbing L then (1 : ℚ) else 0) := by
          refine Finset.sum_congr rfl fun next _ => ?_
          simp only [FrozenLake.transitionP, if_pos hterm]
      _ = 1 := by rw [Finset.sum_ite_eq' _ _ (fun _ => (1 : ℚ)), if_pos habs]
  · have hcell : state < L.rows * L.columns := by
      have hne : state ≠ FrozenLake.absorbing L := fun h => hterm (Or.inl h)
      simp only [FrozenLake.absorbing, FrozenLake.nS] at hne hs ⊢
      omega
    have hdest : ∀ a2 : Nat, FrozenLake.dest L state a2 ∈ Finset.range (FrozenLake.nS L) := by
      intro a2
      have := FrozenLake.dest_lt L state a2 hcell
      simp only [FrozenLake.nS, Finset.mem_range]
      omega
    calc ∑ next ∈ Finset.range (FrozenLake.nS L), FrozenLake.transitionP L slip next state action
        = ∑ next ∈ Finset.range (FrozenLake.nS L),
            ((∑ a2 ∈ Finset.range 4, if FrozenLake.dest L state a2 = next then slip / 4 else 0) +
              (if FrozenLake.dest L state action = next then 1 - slip else 0)) := by
          refine Finset.sum_congr rfl fun next _ => ?_
          simp only [FrozenLake.transitionP, if_neg hterm]
          exact FrozenLake.populateEntry_eq L slip state action next ha
      _ = (∑ a2 ∈ Finset.range 4, (slip / 4 : ℚ)) + (1 - slip) := by
          rw [Finset.sum_add_distrib, Finset.sum_comm]
          congr 1
          · refine Finset.sum_congr rfl fun a2 _ => ?_
            rw [Finset.sum_ite_eq _ _ (fun _ => (slip / 4 : ℚ)), if_pos (hdest a2)]
          · rw [Finset.sum_ite_eq _ _ (fun _ => (1 - slip : ℚ)), if_pos (hdest action)]
      _ = 1 := by
          simp [Finset.sum_const, Finset.card_range]
          ring

lemma GridWorld.row_total_one (W : Grid) (state action : Nat) (hs : state < GridWorld.nS W) :
    ∑ next ∈ Finset.range (GridWorld.nS W), GridWorld.transitionP W next state action = 1 := by
  have hstate : state ∈ Finset.range (GridWorld.nS W) := Finset.mem_range.mpr hs
  have habs : GridWorld.absorbing W ∈ Finset.range (GridWorld.nS W) := by
    simp [GridWorld.absorbing, GridWorld.nS]
  by_cases h1 : state = GridWorld.absorbing W ∨ W.cellAt state = '#'
  · calc ∑ next ∈ Finset.range (GridWorld.nS W), GridWorld.transitionP W next state action
        = ∑ next ∈ Finset.range (GridWorld.nS W), (if state = next then (1 : ℚ) else 0) := by
          refine Finset.sum_congr rfl fun next _ => ?_
          simp only [GridWorld.transitionP, if_pos h1]
      _ = 1 := by rw [Finset.sum_ite_eq _ _ (fun _ => (1 : ℚ)), if_pos hstate]
  · by_cases h2 : W.cellAt state = '£' ∨ W.cellAt state = '$'
    · calc ∑ next ∈ Finset.range (GridWorld.nS W), GridWorld.transitionP W next state action
          = ∑ next ∈ Finset.range (GridWorld.nS W),
              (if next = GridWorld.absorbing W then (1 : ℚ) else 0) := by
            refine Finset.sum_congr rfl fun next _ => ?_
            simp only [GridWorld.transitionP, if_neg h1, if_pos h2]
        _ = 1 := by rw [Finset.sum_ite_eq' _ _ (fun _ => (1 : ℚ)), if_pos habs]
    · by_cases h3 : 0 ≤ GridWorld.moveX W state action ∧
          GridWorld.moveX W state action < (W.rows : Int) ∧
          0 ≤ GridWorld.moveY W state action ∧
          GridWorld.moveY W state action < (W.columns : Int) ∧
          W.cell (GridWorld.moveX W state action).toNat (GridWorld.moveY W state action).toNat ≠ '#'
      · have htarget : position_to_index (GridWorld.moveX W state action).toNat
            (GridWorld.moveY W state action).toNat W.columns ∈ Finset.range (GridWorld.nS W) := by
          obtain ⟨hx0, hxr, hy0, hyc, _⟩ := h3
          have hxn : (GridWorld.moveX W state action).toNat < W.rows := by omega
          have hyn : (GridWorld.moveY W state action).toNat < W.columns := by omega
          simp only [position_to_index, Finset.mem_range, GridWorld.nS]
          have := cell_flat_lt hxn hyn
          omega
        calc ∑ next ∈ Finset.range (GridWorld.nS W), GridWorld.transitionP W next state action
            = ∑ next ∈ Finset.range (GridWorld.nS W),
                (if next = position_to_index (GridWorld.moveX W state action).toNat
                    (GridWorld.moveY W state action).toNat W.columns then (1 : ℚ) else 0) := by
              refine Finset.sum_congr rfl fun next _ => ?_
              simp only [GridWorld.transitionP, if_neg h1, if_neg h2, if_pos h3]
          _ = 1 := by rw [Finset.sum_ite_eq' _ _ (fun _ => (1 : ℚ)), if_pos htarget]
      · calc ∑ next ∈ Finset.range (GridWorld.nS W), GridWorld.transitionP W next state action
            = ∑ next ∈ Finset.range (GridWorld.nS W), (if state = next then (1 : ℚ) else 0) := by
              refine Finset.sum_congr rfl fun next _ => ?_
              simp only [GridWorld.transitionP, if_neg h1, if_neg h2, if_neg h3]
          _ = 1 := by rw [Finset.sum_ite_eq _ _ (fun _ => (1 : ℚ)), if_pos hstate]

/-- C1: in the slippery FrozenLake environment, for every non-terminal,
non-absorbing cell state and every intended action, the constructed transition
probability to each next state equals the sum over all four actions of
`slip / n_actions` mass assigned to the cell reached by that action's movement
delta (clipped to the state itself when the move leaves the grid), plus an
extra `1 - slip` mass assigned to the cell reached by the intended action,
masses accumulating when several moves lead to the same cell. -/
theorem frozenlake_slip_kernel (L : Grid) (slip : ℚ) (state action next : Nat)
    (hcell : state < L.rows * L.columns)
    (hhole : L.cellAt state ≠ '#') (hgoal : L.cellAt state ≠ '$')
    (ha : action < 4) :
    FrozenLake.transitionP L slip next state action =
      (∑ a2 ∈ Finset.range 4, if FrozenLake.dest L state a2 = next then slip / 4 else 0) +
        (if FrozenLake.dest L state action = next then 1 - slip else 0) := by
  have hne : state ≠ FrozenLake.absorbing L := by
    simp only [FrozenLake.absorbing, FrozenLake.nS]
    omega
  simp only [FrozenLake.transitionP]
  rw [if_neg (by push_neg; exact ⟨hne, hhole, hgoal⟩)]
  exact FrozenLake.populateEntry_eq L slip state action next ha

/-- Witness for C1 at the 4×4 lake, state 1 (a frozen cell), intended action 2
(left), next state 0. -/
theorem frozenlake_slip_kernel_witness :
    FrozenLake.transitionP lake4 (1 / 3) 0 1 2 =
      (∑ a2 ∈ Finset.range 4, if FrozenLake.dest lake4 1 a2 = 0 then (1 / 3 : ℚ) / 4 else 0) +
        (if FrozenLake.dest lake4 1 2 = 0 then 1 - (1 / 3 : ℚ) else 0) :=
  frozenlake_slip_kernel lake4 (1 / 3) 1 2 0 (by decide) (by decide) (by decide) (by decide)

/-- C2: in both concrete environments, for every state in `[0, n_states)` and
every action in `[0, n_actions)`, the transition probabilities over all next
states sum to exactly 1. -/
theorem kernel_sums_to_one :
    (∀ (L : Grid) (slip : ℚ) (state action : Nat),
        state < FrozenLake.nS L → action < 4 →
        ∑ next ∈ Finset.range (FrozenLake.nS L),
          FrozenLake.transitionP L slip next state action = 1) ∧
    (∀ (W : Grid) (state action : Nat),
        state < GridWorld.nS W → action < 4 →
        ∑ next ∈ Finset.range (GridWorld.nS W),
          GridWorld.transitionP W next state action = 1) :=
  ⟨fun L slip state action hs ha => FrozenLake.probs_sum_one L slip state action hs ha,
   fun W state action hs _ => GridWorld.row_total_one W state action hs⟩

/-- Witness for C2 at the concrete 4×4 lake and grid, state 0, action 0. -/
theorem kernel_sums_to_one_witness :
    (∑ next ∈ Finset.range (FrozenLake.nS lake4),
        FrozenLake.transitionP lake4 (1 / 3) next 0 0 = 1) ∧
    (∑ next ∈ Finset.range (GridWorld.nS grid4),
        GridWorld.transitionP grid4 next 0 0 = 1) :=
  ⟨kernel_sums_to_one.1 lake4 (1 / 3) 0 0 (by decide) (by decide),
   kernel_sums_to_one.2 grid4 0 0 (by decide) (by decide)⟩

/-- C3: in both concrete environments, from the absorbing state every action
transitions to the absorbing state itself with probability 1 (and 0 to every
other state), and every transition out of the absorbing state has reward 0. -/
theorem absorbing_self_loop :
    (∀ (L : Grid) (slip : ℚ) (next action : Nat),
        FrozenLake.transitionP L slip next (FrozenLake.absorbing L) action =
          if next = FrozenLake.absorbing L then 1 else 0) ∧
    (∀ (L : Grid) (slip : ℚ) (next action : Nat),
        FrozenLake.reward L slip next (FrozenLake.absorbing L) action = 0) ∧
    (∀ (W : Grid) (next action : Nat),
        GridWorld.transitionP W next (GridWorld.absorbing W) action =
          if next = GridWorld.absorbing W then 1 else 0) ∧
    (∀ (W : Grid) (next action : Nat),
        GridWorld.reward W next (GridWorld.absorbing W) action = 0) := by
  refine ⟨fun L slip next action => ?_, fun L slip next action => ?_,
    fun W next action => ?_, fun W next action => ?_⟩
  · simp [FrozenLake.transitionP]
  · simp [FrozenLake.reward]
  · have hcomm : GridWorld.absorbing W = next ↔ next = GridWorld.absorbing W := eq_comm
    simp [GridWorld.transitionP, hcomm]
  · simp [GridWorld.reward]

/-- C4: for every valid action, `step` increments the step counter by one,
advances the current state to the drawn next state, and returns `done = true`
exactly when the incremented counter has reached `max_steps` (base class:
truncation only) or, in the two concrete environments, additionally when the
new state is the absorbing state. -/
theorem step_advances (n_actions max_steps : Nat) (draw : Nat → Nat → Nat × ℚ)
    (es : EnvState) (action : Int) (L W : Grid)
    (h0 : 0 ≤ action) (hn : action < (n_actions : Int)) (h4 : action < 4) :
    Environment.step n_actions max_steps draw es action =
      (⟨(draw es.state action.toNat).1, es.n_steps + 1⟩,
        Except.ok ((draw es.state action.toNat).1, (draw es.state action.toNat).2,
          decide (max_steps ≤ es.n_steps + 1))) ∧
    FrozenLake.step L max_steps draw es action =
      (⟨(draw es.state action.toNat).1, es.n_steps + 1⟩,
        Except.ok ((draw es.state action.toNat).1, (draw es.state action.toNat).2,
          (((draw es.state action.toNat).1 == FrozenLake.absorbing L) ||
            decide (max_steps ≤ es.n_steps + 1)))) ∧
    GridWorld.step W max_steps draw es action =
      (⟨(draw es.state action.toNat).1, es.n_steps + 1⟩,
        Except.ok ((draw es.state action.toNat).1, (draw es.state action.toNat).2,
          (((draw es.state action.toNat).1 == GridWorld.absorbing W) ||
            decide (max_steps ≤ es.n_steps + 1)))) := by
  have hbase : ∀ m : Nat, action < (m : Int) →
      Environment.step m max_steps draw es action =
        (⟨(draw es.state action.toNat).1, es.n_steps + 1⟩,
          Except.ok ((draw es.state action.toNat).1, (draw es.state action.toNat).2,
            decide (max_steps ≤ es.n_steps + 1))) := by
    intro m hm
    unfold Environment.step
    rw [if_neg (by omega)]
  refine ⟨hbase n_actions hn, ?_, ?_⟩
  · simp [FrozenLake.step, hbase 4 h4, Except.map]
  · simp [GridWorld.step, hbase 4 h4, Except.map]

/-- Witness for C4 at `n_actions = 4`, `max_steps = 2`, a concrete draw
function, initial state `⟨0, 0⟩` and action 1. -/
theorem step_advances_witness :
    Environment.step 4 2 (fun s a => (s + a, (3 : ℚ))) ⟨0, 0⟩ 1 =
      (⟨1, 1⟩, Except.ok (1, (3 : ℚ), false)) ∧
    FrozenLake.step lake4 2 (fun s a => (s + a, (3 : ℚ))) ⟨0, 0⟩ 1 =
      (⟨1, 1⟩, Except.ok (1, (3 : ℚ), false)) ∧
    GridWorld.step grid4 2 (fun s a => (s + a, (3 : ℚ))) ⟨0, 0⟩ 1 =
      (⟨1, 1⟩, Except.ok (1, (3 : ℚ), false)) :=
  step_advances 4 2 (fun s a => (s + a, (3 : ℚ))) ⟨0, 0⟩ 1 lake4 grid4
    (by decide) (by decide) (by decide)

/-- C5: `step` fails with the invalid-action error exactly when the action lies
outside `[0, n_actions)`, and for every action inside that range it returns an
ordinary `(next_state, reward, done)` triple. -/
theorem step_invalid_action_iff (n_actions max_steps : Nat) (draw : Nat → Nat → Nat × ℚ)
    (es : EnvState) (action : Int) :
    ((Environment.step n_actions max_steps draw es action).2 =
        Except.error "Invalid Action!!!" ↔
      action < 0 ∨ (n_actions : Int) ≤ action) ∧
    (0 ≤ action → action < (n_actions : Int) →
      (Environment.step n_actions max_steps draw es action).2 =
        Except.ok ((draw es.state action.toNat).1, (draw es.state action.toNat).2,
          decide (max_steps ≤ es.n_steps + 1))) := by
  constructor
  · unfold Environment.step
    split_ifs with h
    · simpa using h
    · simpa using h
  · intro hlo hhi
    unfold Environment.step
    rw [if_neg (by omega)]

/-- Witness for C5: action 7 errors, action 2 returns a triple. -/
theorem step_invalid_action_iff_witness :
    (Environment.step 4 2 (fun s a => (s + a, (3 : ℚ))) ⟨0, 0⟩ 7).2 =
      Except.error "Invalid Action!!!" ∧
    (Environment.step 4 2 (fun s a => (s + a, (3 : ℚ))) ⟨0, 0⟩ 2).2 =
      Except.ok (2, (3 : ℚ), false) :=
  ⟨(step_invalid_action_iff 4 2 (fun s a => (s + a, (3 : ℚ))) ⟨0, 0⟩ 7).1.mpr (by decide),
   (step_invalid_action_iff 4 2 (fun s a => (s + a, (3 : ℚ))) ⟨0, 0⟩ 2).2
     (by decide) (by decide)⟩

/-- C10: when `step` rejects an action as invalid, the environment's internal
current state and step counter are exactly what they were before the call,
because the validity check precedes every mutation (shown for the base class
and for both concrete environments). -/
theorem step_state_unchanged_on_error (n_actions max_steps : Nat)
    (draw : Nat → Nat → Nat × ℚ) (es : EnvState) (action : Int) (L W : Grid)
    (h : action < 0 ∨ (n_actions : Int) ≤ action)
    (h4 : action < 0 ∨ (4 : Int) ≤ action) :
    (Environment.step n_actions max_steps draw es action).1 = es ∧
    (FrozenLake.step L max_steps draw es action).1 = es ∧
    (GridWorld.step W max_steps draw es action).1 = es := by
  have hbase : ∀ m : Nat, (action < 0 ∨ (m : Int) ≤ action) →
      (Environment.step m max_steps draw es action).1 = es := by
    intro m hm
    unfold Environment.step
    rw [if_pos hm]
  exact ⟨hbase n_actions h, hbase 4 h4, hbase 4 h4⟩

/-- Witness for C10 at action `-2` from state `⟨5, 7⟩`. -/
theorem step_state_unchanged_on_error_witness :
    (Environment.step 4 2 (fun s a => (s + a, (3 : ℚ))) ⟨5, 7⟩ (-2)).1 = ⟨5, 7⟩ ∧
    (FrozenLake.step lake4 2 (fun s a => (s + a, (3 : ℚ))) ⟨5, 7⟩ (-2)).1 = ⟨5, 7⟩ ∧
    (GridWorld.step grid4 2 (fun s a => (s + a, (3 : ℚ))) ⟨5, 7⟩ (-2)).1 = ⟨5, 7⟩ :=
  step_state_unchanged_on_error 4 2 (fun s a => (s + a, (3 : ℚ))) ⟨5, 7⟩ (-2) lake4 grid4
    (by decide) (by decide)

lemma lake4_start_mass_to_absorbing : FrozenLake.transitionP lake4 (1 / 3) 16 0 0 = 0 := by
  have he := FrozenLake.populateEntry_eq lake4 (1 / 3) 0 0 16 (by norm_num)
  simp only [FrozenLake.transitionP]
  rw [if_neg (by decide), he]
  norm_num [Finset.sum_range_succ,
    show FrozenLake.dest lake4 0 0 = 0 from by decide,
    show FrozenLake.dest lake4 0 1 = 4 from by decide,
    show FrozenLake.dest lake4 0 2 = 0 from by decide,
    show FrozenLake.dest lake4 0 3 = 1 from by decide]

lemma lake4_start_mass_down : FrozenLake.transitionP lake4 (1 / 3) 4 0 1 = 3 / 4 := by
  have he := FrozenLake.populateEntry_eq lake4 (1 / 3) 0 1 4 (by norm_num)
  simp only [FrozenLake.transitionP]
  rw [if_neg (by decide), he]
  norm_num [Finset.sum_range_succ,
    show FrozenLake.dest lake4 0 0 = 0 from by decide,
    show FrozenLake.dest lake4 0 1 = 4 from by decide,
    show FrozenLake.dest lake4 0 2 = 0 from by decide,
    show FrozenLake.dest lake4 0 3 = 1 from by decide]

/-- Counterexample for C9, covering both the transition and the reward
oracles.  `FrozenLake.p` queried with `next_state = -1` (outside `[0, 17)` on
the 4×4 lake) wraps pythonically and returns a stored probability;
`GridWorld.p` queried with `next_state = 999` returns a value because
`next_state` is never used as an index; both reward oracles return the default
reward 0 on those same out-of-range queries instead of failing; and
conversely `FrozenLake.r` queried at `state = -17` fails even though every
index lies inside its wraparound range `[-17, 17)`, because the symbol lookup
floor-divides the raw state into lake row `-5`. -/
theorem oracle_out_of_range_returns_value :
    (FrozenLake.pQuery lake4 (1 / 3) (-1) 0 0).isSome = true ∧
    (GridWorld.pQuery grid4 999 5 0).isSome = true ∧
    FrozenLake.rQuery lake4 (1 / 3) (-1) 0 0 = some 0 ∧
    GridWorld.rQuery grid4 999 5 0 = some 0 ∧
    FrozenLake.rQuery lake4 (1 / 3) 4 (-17) 1 = none := by
  refine ⟨by decide, by decide, ?_, ?_, ?_⟩
  · unfold FrozenLake.rQuery
    rw [show FrozenLake.pQuery lake4 (1 / 3) (-1) 0 0 =
      some (FrozenLake.transitionP lake4 (1 / 3) 16 0 0) from rfl]
    simp only [Option.elim]
    rw [if_pos (Or.inl lake4_start_mass_to_absorbing)]
  · unfold GridWorld.rQuery
    rw [show GridWorld.pQuery grid4 999 5 0 = some 0 from rfl]
    simp [Option.elim]
  · unfold FrozenLake.rQuery
    rw [show FrozenLake.pQuery lake4 (1 / 3) 4 (-17) 1 =
      some (FrozenLake.transitionP lake4 (1 / 3) 4 0 1) from rfl]
    simp only [Option.elim]
    rw [if_neg (by
      push_neg
      exact ⟨by rw [lake4_start_mass_down]; norm_num, by decide⟩)]
    rw [show Grid.cellI lake4 ((-17 : Int).ediv (lake4.columns : Int))
        ((-17 : Int).emod (lake4.columns : Int)) = none from by decide]

/-- C9 amended: `FrozenLake.p` fails with a bounds error exactly when some
index falls outside the numpy wraparound range `[-dim, dim)` of its axis
(negative indices inside that range wrap around and return a tensor entry);
`GridWorld.p` never fails on any `next_state` value when `state` and `action`
are valid, because `next_state` is only compared, never used as an index; and
each reward oracle first repeats the same transition read, so it fails exactly
when that read fails or when the read yields nonzero mass, the raw endpoints
differ from the absorbing index, and the raw floor-division row of its symbol
lookup (of `state` in FrozenLake, of `next_state` in GridWorld) falls outside
the row axis's wraparound range — in every other case the reward oracle
returns a value, possibly the default reward 0, rather than a bounds error. -/
theorem oracle_bounds (L : Grid) (slip : ℚ) (next state action : Int) :
    (FrozenLake.pQuery L slip next state action = none ↔
      state < -(FrozenLake.nS L : Int) ∨ (FrozenLake.nS L : Int) ≤ state ∨
      action < -4 ∨ 4 ≤ action ∨
      next < -(FrozenLake.nS L : Int) ∨ (FrozenLake.nS L : Int) ≤ next) ∧
    (∀ (W : Grid) (next2 state2 action2 : Int), 0 < W.columns →
      0 ≤ state2 → state2 < (GridWorld.nS W : Int) → -4 ≤ action2 → action2 < 4 →
      (GridWorld.pQuery W next2 state2 action2).isSome = true) ∧
    (0 < L.columns →
      (FrozenLake.rQuery L slip next state action = none ↔
        FrozenLake.pQuery L slip next state action = none ∨
        (∃ q, FrozenLake.pQuery L slip next state action = some q ∧ q ≠ 0 ∧
          (FrozenLake.absorbing L : Int) ≠ state ∧
          (state.ediv (L.columns : Int) < -(L.rows : Int) ∨
            (L.rows : Int) ≤ state.ediv (L.columns : Int))))) ∧
    (∀ (W : Grid) (next2 state2 action2 : Int), 0 < W.columns →
      (GridWorld.rQuery W next2 state2 action2 = none ↔
        GridWorld.pQuery W next2 state2 action2 = none ∨
        (∃ q, GridWorld.pQuery W next2 state2 action2 = some q ∧ q ≠ 0 ∧
          (GridWorld.absorbing W : Int) ≠ state2 ∧ (GridWorld.absorbing W : Int) ≠ next2 ∧
          (next2.ediv (W.columns : Int) < -(W.rows : Int) ∨
            (W.rows : Int) ≤ next2.ediv (W.columns : Int))))) := by
  refine ⟨?_, ?_, ?_, ?_⟩
  · unfold FrozenLake.pQuery
    split_ifs with h
    · simp only [reduceCtorEq, false_iff]
      omega
    · simp only [true_iff]
      omega
  · intro W next2 state2 action2 hc hs0 hsn ha0 ha1
    unfold GridWorld.pQuery
    rw [if_pos ⟨ha0, ha1⟩]
    by_cases habs : state2 = (GridWorld.nS W : Int) - 1
    · rw [if_pos habs]
      rfl
    · rw [if_neg habs]
      have hcz : (W.columns : Int) ≠ 0 := by omega
      have hx0 : 0 ≤ state2.ediv (W.columns : Int) :=
        Int.ediv_nonneg hs0 (by omega)
      have hnS : (GridWorld.nS W : Int) = (W.rows : Int) * (W.columns : Int) + 1 := by
        simp only [GridWorld.nS]
        push_cast
        ring
      have hlt : state2 < (W.rows : Int) * (W.columns : Int) := by
        rw [hnS] at hsn habs
        have h1 : state2 ≤ (W.rows : Int) * (W.columns : Int) := Int.lt_add_one_iff.mp hsn
        exact lt_of_le_of_ne h1 (by simpa using habs)
      have hxr : state2.ediv (W.columns : Int) < (W.rows : Int) := by
        have h2 : state2 / (W.columns : Int) < (W.rows : Int) := by
          rw [Int.ediv_lt_iff_lt_mul (show (0 : Int) < (W.columns : Int) by omega)]
          exact hlt
        exact h2
      have hy0 : 0 ≤ state2.emod (W.columns : Int) := Int.emod_nonneg state2 hcz
      have hyc : state2.emod (W.columns : Int) < (W.columns : Int) :=
        Int.emod_lt_of_pos state2 (by omega)
      unfold Grid.cellI
      rw [if_pos ⟨by omega, by omega, by omega, by omega⟩]
      simp only [Option.elim]
      split_ifs <;> rfl
  · intro hcols
    have hy0 : 0 ≤ state.emod (L.columns : Int) := Int.emod_nonneg state (by omega)
    have hyc : state.emod (L.columns : Int) < (L.columns : Int) :=
      Int.emod_lt_of_pos state (by omega)
    unfold FrozenLake.rQuery
    cases hpq : FrozenLake.pQuery L slip next state action with
    | none => simp [Option.elim]
    | some q =>
        simp only [Option.elim]
        by_cases hg : q = 0 ∨ (FrozenLake.absorbing L : Int) = state
        · rw [if_pos hg]
          constructor
          · intro h
            exact absurd h (by simp)
          · rintro (h | ⟨q2, hq2, hq0, habs, _⟩)
            · exact absurd h (by simp)
            · have hqq : q = q2 := Option.some.inj hq2
              subst hqq
              rcases hg with h0 | ha
              · exact absurd h0 hq0
              · exact absurd ha habs
        · rw [if_neg hg]
          push_neg at hg
          obtain ⟨hq0, habs⟩ := hg
          by_cases hrow : state.ediv (L.columns : Int) < -(L.rows : Int) ∨
              (L.rows : Int) ≤ state.ediv (L.columns : Int)
          · have hcell : Grid.cellI L (state.ediv (L.columns : Int))
                (state.emod (L.columns : Int)) = none := by
              unfold Grid.cellI
              rw [if_neg (by omega)]
            rw [hcell]
            simp only [Option.elim]
            constructor
            · intro _
              exact Or.inr ⟨q, rfl, hq0, habs, hrow⟩
            · intro _
              trivial
          · push_neg at hrow
            have hcell : Grid.cellI L (state.ediv (L.columns : Int))
                (state.emod (L.columns : Int)) =
                some (L.cell ((state.ediv (L.columns : Int)).emod (L.rows : Int)).toNat
                  ((state.emod (L.columns : Int)).emod (L.columns : Int)).toNat) := by
              unfold Grid.cellI
              rw [if_pos ⟨by omega, by omega, by omega, by omega⟩]
            rw [hcell]
            simp only [Option.elim]
            constructor
            · intro h
              split_ifs at h
            · rintro (h | ⟨q2, hq2, _, _, hr⟩)
              · exact Option.noConfusion h
              · omega
  · intro W next2 state2 action2 hcols
    have hy0 : 0 ≤ next2.emod (W.columns : Int) := Int.emod_nonneg next2 (by omega)
    have hyc : next2.emod (W.columns : Int) < (W.columns : Int) :=
      Int.emod_lt_of_pos next2 (by omega)
    unfold GridWorld.rQuery
    cases hpq : GridWorld.pQuery W next2 state2 action2 with
    | none => simp [Option.elim]
    | some q =>
        simp only [Option.elim]
        by_cases hg : q = 0 ∨ (GridWorld.absorbing W : Int) = state2 ∨
            (GridWorld.absorbing W : Int) = next2
        · rw [if_pos hg]
          constructor
          · intro h
            exact absurd h (by simp)
          · rintro (h | ⟨q2, hq2, hq0, habs1, habs2, _⟩)
            · exact absurd h (by simp)
            · have hqq : q = q2 := Option.some.inj hq2
              subst hqq
              rcases hg with h0 | ha1 | ha2
              · exact absurd h0 hq0
              · exact absurd ha1 habs1
              · exact absurd ha2 habs2
        · rw [if_neg hg]
          push_neg at hg
          obtain ⟨hq0, habs1, habs2⟩ := hg
          by_cases hrow : next2.ediv (W.columns : Int) < -(W.rows : Int) ∨
              (W.rows : Int) ≤ next2.ediv (W.columns : Int)
          · have hcell : Grid.cellI W (next2.ediv (W.columns : Int))
                (next2.emod (W.columns : Int)) = none := by
              unfold Grid.cellI
              rw [if_neg (by omega)]
            rw [hcell]
            simp only [Option.elim]
            constructor
            · intro _
              exact Or.inr ⟨q, rfl, hq0, habs1, habs2, hrow⟩
            · intro _
              trivial
          · push_neg at hrow
            have hcell : Grid.cellI W (next2.ediv (W.columns : Int))
                (next2.emod (W.columns : Int)) =
                some (W.cell ((next2.ediv (W.columns : Int)).emod (W.rows : Int)).toNat
                  ((next2.emod (W.columns : Int)).emod (W.columns : Int)).toNat) := by
              unfold Grid.cellI
              rw [if_pos ⟨by omega, by omega, by omega, by omega⟩]
            rw [hcell]
            simp only [Option.elim]
            constructor
            · intro h
              split_ifs at h
            · rintro (h | ⟨q2, hq2, _, _, _, hr⟩)
              · exact Option.noConfusion h
              · omega

/-- Witness for the amended C9: a fully out-of-range `next_state` of 999 on the
4×4 grid world still yields a transition probability, and the reward-oracle
characterization instantiates at the in-wraparound-range failing query
`r(4, -17, 1)` on the 4×4 lake. -/
theorem oracle_bounds_witness :
    (GridWorld.pQuery grid4 999 0 0).isSome = true ∧
    (FrozenLake.rQuery lake4 (1 / 3) 4 (-17) 1 = none ↔
      FrozenLake.pQuery lake4 (1 / 3) 4 (-17) 1 = none ∨
      (∃ q, FrozenLake.pQuery lake4 (1 / 3) 4 (-17) 1 = some q ∧ q ≠ 0 ∧
        (FrozenLake.absorbing lake4 : Int) ≠ -17 ∧
        ((-17 : Int).ediv (lake4.columns : Int) < -(lake4.rows : Int) ∨
          (lake4.rows : Int) ≤ (-17 : Int).ediv (lake4.columns : Int)))) :=
  ⟨(oracle_bounds lake4 0 0 0 0).2.1 grid4 999 0 0 (by decide) (by decide) (by decide)
    (by decide) (by decide),
   (oracle_bounds lake4 (1 / 3) 4 (-17) 1).2.2.1 (by decide)⟩

/-- Counterexample for C6: `policy_iteration` does serialize the value array —
already on the two-state MDP with one outer iteration its list of file writes
is non-empty. -/
theorem policy_iteration_writes_file :
    (policy_iteration mdp2 1 1 1).2 ≠ [] :=
  List.cons_ne_nil _ _

/-- C6 amended: `policy_iteration` returns exactly the final `(policy, value)`
pair of the evaluate/improve loop and keeps no state between calls, but before
returning it performs exactly one serialization of the returned value array,
to a `.npy` file keyed by the environment's state count. -/
theorem policy_iteration_output_and_saves (env : MDP) (gamma theta : ℚ) (N : Nat) :
    (policy_iteration env gamma theta N).1 =
      piLoop env gamma theta N N (fun _ => 0) (fun _ => 0) ∧
    (policy_iteration env gamma theta N).2 =
      [(if env.n_states = 17 then "data/small_frozenlake_policy_evaluation.npy"
        else "data/big_frozenlake_policy_evaluation.npy",
        (policy_iteration env gamma theta N).1.2)] ∧
    (policy_iteration env gamma theta N).2.length = 1 :=
  ⟨rfl, rfl, rfl⟩

/-- C8: the improved policy returned by `policy_improvement` is determined
solely by the environment, the value array and the discount — the input policy
feeds only the stability check — and hence re-applying `policy_improvement` to
its own output with the same value array returns that same policy with
`stable = true`. -/
theorem policy_improvement_idempotent (env : MDP) (p1 p2 : Nat → Nat) (v : Nat → ℚ)
    (gamma : ℚ) :
    (policy_improvement env p1 v gamma).1 = (policy_improvement env p2 v gamma).1 ∧
    policy_improvement env (policy_improvement env p1 v gamma).1 v gamma =
      ((policy_improvement env p1 v gamma).1, true) := by
  refine ⟨rfl, ?_⟩
  have h2 : (policy_improvement env (policy_improvement env p1 v gamma).1 v gamma).2 = true := by
    simp [policy_improvement, List.all_eq_true]
  exact Prod.ext rfl h2

lemma MDP.backup_absorbing (env : MDP) (gamma : ℚ) (pol : Nat) (v : Nat → ℚ)
    (hn : 0 < env.n_states)
    (hp : ∀ a s2, env.p (env.n_states - 1) s2 a =
      if s2 = env.n_states - 1 then 1 else 0)
    (hr : ∀ a s2, env.r (env.n_states - 1) s2 a = 0)
    (hpol : pol < env.n_actions) :
    MDP.backup env gamma pol v (env.n_states - 1) = gamma * v (env.n_states - 1) := by
  unfold MDP.backup
  have step1 : ∀ s2 ∈ Finset.range env.n_states,
      (∑ a ∈ Finset.range env.n_actions,
        (if a = pol then (1 : ℚ) else 0) * env.p (env.n_states - 1) s2 a *
          (env.r (env.n_states - 1) s2 a + gamma * v s2)) =
      (if s2 = env.n_states - 1 then gamma * v s2 else 0) := by
    intro s2 _
    have hterm : ∀ a ∈ Finset.range env.n_actions,
        (if a = pol then (1 : ℚ) else 0) * env.p (env.n_states - 1) s2 a *
          (env.r (env.n_states - 1) s2 a + gamma * v s2) =
        (if a = pol then (if s2 = env.n_states - 1 then gamma * v s2 else 0) else 0) := by
      intro a _
      rw [hp, hr, zero_add]
      by_cases h1 : a = pol <;> by_cases h2 : s2 = env.n_states - 1 <;> simp [h1, h2]
    rw [Finset.sum_congr rfl hterm,
      Finset.sum_ite_eq' _ _ (fun _ => if s2 = env.n_states - 1 then gamma * v s2 else 0),
      if_pos (Finset.mem_range.mpr hpol)]
  rw [Finset.sum_congr rfl step1,
    Finset.sum_ite_eq' _ _ (fun s2 => gamma * v s2),
    if_pos (Finset.mem_range.mpr (by omega))]

lemma MDP.backup_policy_congr (env : MDP) (gamma : ℚ) (p1 p2 : Nat → Nat)
    (hn : 0 < env.n_states)
    (hp : ∀ a s2, env.p (env.n_states - 1) s2 a =
      if s2 = env.n_states - 1 then 1 else 0)
    (hr : ∀ a s2, env.r (env.n_states - 1) s2 a = 0)
    (hagree : ∀ s, s ≠ env.n_states - 1 → p1 s = p2 s)
    (h1 : p1 (env.n_states - 1) < env.n_actions)
    (h2 : p2 (env.n_states - 1) < env.n_actions)
    (v : Nat → ℚ) (s : Nat) :
    MDP.backup env gamma (p1 s) v s = MDP.backup env gamma (p2 s) v s := by
  by_cases hs : s = env.n_states - 1
  · subst hs
    rw [MDP.backup_absorbing env gamma _ v hn hp hr h1,
      MDP.backup_absorbing env gamma _ v hn hp hr h2]
  · rw [hagree s hs]

lemma MDP.evalSweep_policy_congr (env : MDP) (gamma : ℚ) (p1 p2 : Nat → Nat)
    (hn : 0 < env.n_states)
    (hp : ∀ a s2, env.p (env.n_states - 1) s2 a =
      if s2 = env.n_states - 1 then 1 else 0)
    (hr : ∀ a s2, env.r (env.n_states - 1) s2 a = 0)
    (hagree : ∀ s, s ≠ env.n_states - 1 → p1 s = p2 s)
    (h1 : p1 (env.n_states - 1) < env.n_actions)
    (h2 : p2 (env.n_states - 1) < env.n_actions)
    (v : Nat → ℚ) :
    MDP.evalSweep env p1 gamma v = MDP.evalSweep env p2 gamma v := by
  unfold MDP.evalSweep
  have hf : (fun (acc : (Nat → ℚ) × ℚ) s =>
        (Function.update acc.1 s (MDP.backup env gamma (p1 s) acc.1 s),
          max acc.2 |acc.1 s - MDP.backup env gamma (p1 s) acc.1 s|)) =
      (fun (acc : (Nat → ℚ) × ℚ) s =>
        (Function.update acc.1 s (MDP.backup env gamma (p2 s) acc.1 s),
          max acc.2 |acc.1 s - MDP.backup env gamma (p2 s) acc.1 s|)) := by
    funext acc s
    rw [MDP.backup_policy_congr env gamma p1 p2 hn hp hr hagree h1 h2 acc.1 s]
  rw [hf]

lemma MDP.evalLoop_policy_congr (env : MDP) (gamma theta : ℚ) (p1 p2 : Nat → Nat)
    (hn : 0 < env.n_states)
    (hp : ∀ a s2, env.p (env.n_states - 1) s2 a =
      if s2 = env.n_states - 1 then 1 else 0)
    (hr : ∀ a s2, env.r (env.n_states - 1) s2 a = 0)
    (hagree : ∀ s, s ≠ env.n_states - 1 → p1 s = p2 s)
    (h1 : p1 (env.n_states - 1) < env.n_actions)
    (h2 : p2 (env.n_states - 1) < env.n_actions) :
    ∀ (fuel : Nat) (v : Nat → ℚ),
      MDP.evalLoop env p1 gamma theta fuel v = MDP.evalLoop env p2 gamma theta fuel v := by
  intro fuel
  induction fuel with
  | zero => intro v; rfl
  | succ n ih =>
      intro v
      simp only [MDP.evalLoop]
      rw [MDP.evalSweep_policy_congr env gamma p1 p2 hn hp hr hagree h1 h2 v]
      split_ifs
      · rfl
      · exact ih _

/-- C7 amended: the value array returned by `policy_evaluation` and the
improved policy returned by `policy_improvement` never depend on the input
policy's entry for the absorbing state (given the absorbing-state invariant of
the environments and in-range entries); the returned stability flag, however,
compares all entries including the absorbing state's, so it is not covered. -/
theorem policy_eval_ignores_absorbing_entry (env : MDP) (p1 p2 : Nat → Nat)
    (gamma theta : ℚ) (N : Nat) (v : Nat → ℚ)
    (hn : 0 < env.n_states)
    (hp : ∀ a s2, env.p (env.n_states - 1) s2 a =
      if s2 = env.n_states - 1 then 1 else 0)
    (hr : ∀ a s2, env.r (env.n_states - 1) s2 a = 0)
    (hagree : ∀ s, s ≠ env.n_states - 1 → p1 s = p2 s)
    (h1 : p1 (env.n_states - 1) < env.n_actions)
    (h2 : p2 (env.n_states - 1) < env.n_actions) :
    policy_evaluation env p1 gamma theta N = policy_evaluation env p2 gamma theta N ∧
    (policy_improvement env p1 v gamma).1 = (policy_improvement env p2 v gamma).1 :=
  ⟨MDP.evalLoop_policy_congr env gamma theta p1 p2 hn hp hr hagree h1 h2 N (fun _ => 0),
   rfl⟩

/-- Witness for the amended C7 on the two-state MDP with policies differing
only at the absorbing state. -/
theorem policy_eval_ignores_absorbing_entry_witness :
    policy_evaluation mdp2 mdp2PolicyA 1 1 3 = policy_evaluation mdp2 mdp2PolicyB 1 1 3 ∧
    (policy_improvement mdp2 mdp2PolicyA (fun _ => 0) 1).1 =
      (policy_improvement mdp2 mdp2PolicyB (fun _ => 0) 1).1 :=
  policy_eval_ignores_absorbing_entry mdp2 mdp2PolicyA mdp2PolicyB 1 1 3 (fun _ => 0)
    (by decide) (fun a s2 => rfl) (fun a s2 => rfl)
    (fun s hs => by
      simp only [mdp2] at hs
      simp [mdp2PolicyA, mdp2PolicyB, hs])
    (by decide) (by decide)

lemma mdp2_qValue_zero (s a : Nat) : MDP.qValue mdp2 1 (fun _ => 0) s a = 0 := by
  simp [MDP.qValue, mdp2, Finset.sum_range_succ]

lemma mdp2_argmax_zero (s : Nat) : npArgmax (MDP.qValue mdp2 1 (fun _ => 0) s) 2 = 0 := by
  have h40 := mdp2_qValue_zero s 0
  have h41 := mdp2_qValue_zero s 1
  simp [npArgmax, show List.range 2 = [0, 1] from rfl, h40, h41]

/-- Counterexample for C7: two policies agreeing on every non-absorbing state
of the two-state MDP for which `policy_improvement` reports different
stability flags, because the flag compares the absorbing state's entry too. -/
theorem policy_improvement_flag_reads_absorbing_entry :
    (policy_improvement mdp2 mdp2PolicyA (fun _ => 0) 1).2 = true ∧
    (policy_improvement mdp2 mdp2PolicyB (fun _ => 0) 1).2 = false ∧
    mdp2PolicyA 0 = mdp2PolicyB 0 ∧ mdp2PolicyA 1 ≠ mdp2PolicyB 1 := by
  have hns : mdp2.n_states = 2 := rfl
  have hna : mdp2.n_actions = 2 := rfl
  refine ⟨?_, ?_, rfl, by decide⟩
  · simp [policy_improvement, hns, hna, show List.range 2 = [0, 1] from rfl,
      mdp2_argmax_zero, mdp2PolicyA]
  · simp [policy_improvement, hns, hna, show List.range 2 = [0, 1] from rfl,
      mdp2_argmax_zero, mdp2PolicyB]
